/-
Verification of the ubidots-html-canvas message bridge.

This file gives a shallow embedding, in Lean 4, of the parts of the
repository that the verified claims are about:

* a model of JavaScript runtime values (`JsValue`) with JS truthiness,
  property lookup and object-update semantics;
* the refactored EventBus-based bridge of `src/Ubidots.js` (first class in
  the file, called `V1` below): state record, internal state-updater
  subscriptions, `_handleMessage`, `_checkReadyState`, `getHeaders`;
* the hardened bridge of `src/Ubidots.js` (second class in the file,
  called `V2` below): `_isOriginTrusted`, `_validatePayload`,
  `_sanitizeData`, `_processMessage`, `_listenMessage`, `setTargetOrigin`,
  `_sendPostMessage`, `_validateJWT` with `_base64UrlDecode`;
* the TypeScript `ubidots.ts` class with its `EventEmitter`
  (`src/libs/event-emitter.ts`), window-listener registry and `destroy`;
* the standalone `EventBus` (JS and TS versions are identical in the
  modelled behaviour).

Effects (window listener registries, postMessage sends, subscriber
invocations, console logging) are made explicit: functions return the new
state together with a trace of observable invocations.
-/
import Mathlib

/-! ## JavaScript value model -/

/-- A JavaScript runtime value.  `undefined` and `null` are distinct (the code
distinguishes them: hardened-variant state fields are initialised to
`null` while the readiness check compares against `undefined`).  Numbers
are modelled as rationals; IEEE-754 rounding plays no role in the verified
claims.  Objects are ordered own-property lists (JS objects preserve
string-key insertion order). -/
inductive JsValue where
  | undefined
  | null
  | bool (b : Bool)
  | num (q : Rat)
  | str (s : String)
  | arr (elems : List JsValue)
  | obj (fields : List (String × JsValue))

/-- JS truthiness (`!!v`).  `NaN` does not arise in the modelled values. -/
def jsTruthy : JsValue → Bool
  | .undefined => false
  | .null => false
  | .bool b => b
  | .num q => q ≠ 0
  | .str s => s ≠ ""
  | .arr _ => true
  | .obj _ => true

/-- First binding of a key in an ordered field list. -/
def lookupField : List (String × JsValue) → String → Option JsValue
  | [], _ => none
  | (k, v) :: rest, key => if k = key then some v else lookupField rest key

/-- JS object property assignment `o[k] = v`: update in place when the key
exists, otherwise append (JS insertion order). -/
def insertField : List (String × JsValue) → String → JsValue → List (String × JsValue)
  | [], key, v => [(key, v)]
  | (k, w) :: rest, key, v =>
    if k = key then (k, v) :: rest else (k, w) :: insertField rest key v

/-- Property access `o.k` / `o[k]`: `undefined` on non-objects and missing
keys (none of the modelled lookups hit array index or string properties). -/
def getProp (v : JsValue) (key : String) : JsValue :=
  match v with
  | .obj fields => (lookupField fields key).getD .undefined
  | _ => .undefined

/-- `v === undefined` test used by the readiness checks. -/
def isJsUndefined : JsValue → Bool
  | .undefined => true
  | _ => false

/-- String coercion used by template literals; only the cases the claims
exercise (strings) matter, the rest follow JS loosely (exact float
formatting is irrelevant here since auth tokens are strings). -/
def jsDisplay : JsValue → String
  | .undefined => "undefined"
  | .null => "null"
  | .bool b => if b then "true" else "false"
  | .num q => if q.den = 1 then toString q.num else toString q
  | .str s => s
  | .arr _ => ""
  | .obj _ => "[object Object]"

/-! ## V1: the EventBus-refactored bridge (first class in `src/Ubidots.js`)

The event bus of this lineage wires eleven internal state-updater
subscriptions at construction; user subscribers are registered after them.
`publish` is modelled as: run the internal updater for the event (when one
exists) and record the publication `(event, payload)` in the trace — each
trace entry is what every user subscriber of that event receives. -/

/-- `this._state` of the refactored class: every field starts `undefined`
except `headers`, which starts `{}`. -/
structure V1State where
  token : JsValue := .undefined
  jwtToken : JsValue := .undefined
  headers : JsValue := .obj []
  selectedDevice : JsValue := .undefined
  selectedDevices : JsValue := .undefined
  selectedDeviceObjects : JsValue := .undefined
  deviceObject : JsValue := .undefined
  dashboardDateRange : JsValue := .undefined
  dashboardObject : JsValue := .undefined
  selectedFilters : JsValue := .undefined
  realTime : JsValue := .undefined

/-- The fresh bridge state built by `_initializeProperties`. -/
def v1FreshState : V1State := {}

/-- The internal `stateUpdaters` table registered by
`_setupInternalSubscriptions`: event name to state reducer. -/
def v1StateUpdater (event : String) (payload : JsValue) (st : V1State) : V1State :=
  if event = "receivedToken" then { st with token := payload }
  else if event = "receivedJWTToken" then { st with jwtToken := payload }
  else if event = "receivedHeaders" then
    { st with headers := if jsTruthy payload then payload else .obj [] }
  else if event = "selectedDevice" then { st with selectedDevice := payload }
  else if event = "selectedDevices" then { st with selectedDevices := payload }
  else if event = "selectedDeviceObject" then { st with deviceObject := payload }
  else if event = "selectedDeviceObjects" then { st with selectedDeviceObjects := payload }
  else if event = "selectedDashboardDateRange" then { st with dashboardDateRange := payload }
  else if event = "selectedDashboardObject" then { st with dashboardObject := payload }
  else if event = "selectedFilters" then { st with selectedFilters := payload }
  else if event = "isRealTimeActive" then { st with realTime := payload }
  else st

/-- `eventBus.publish(event, payload)` as seen from the bridge: the
internal updater (subscribed first) runs, then the publication reaches the
user subscribers, recorded as one trace entry. -/
def v1Publish (st : V1State) (event : String) (payload : JsValue) :
    V1State × List (String × JsValue) :=
  (v1StateUpdater event payload st, [(event, payload)])

/-- `_hasAuthentication`. -/
def v1HasAuthentication (st : V1State) : Bool :=
  jsTruthy st.token || jsTruthy st.jwtToken

/-- `_hasRequiredState`. -/
def v1HasRequiredState (st : V1State) : Bool :=
  !isJsUndefined st.selectedDevice && !isJsUndefined st.dashboardDateRange && !isJsUndefined st.dashboardObject

/-- `_checkReadyState`: publishes `ready` (with no payload) whenever the
readiness predicate holds — note the absence of any one-shot flag. -/
def v1CheckReadyState (st : V1State) : V1State × List (String × JsValue) :=
  if v1HasAuthentication st && v1HasRequiredState st then v1Publish st "ready" .undefined
  else (st, [])

/-- An inbound window message: source origin plus `event.data`. -/
structure Msg where
  origin : String
  data : JsValue

/-- `_handleMessage` of the refactored class, parameterised by
`window.location.origin`.  Non-string truthy `event` fields would be
coerced to property keys by JS; no recognised endpoint is non-string, so
they are modelled as not matching any subscription. -/
def v1HandleMessage (loc : String) (st : V1State) (m : Msg) :
    V1State × List (String × JsValue) :=
  if m.origin ≠ loc then (st, [])
  else
    let d := if jsTruthy m.data then m.data else .obj []
    match getProp d "event" with
    | .str s =>
      if s = "" then (st, [])
      else
        let r1 := v1Publish st s (getProp d "payload")
        let r2 := v1CheckReadyState r1.1
        (r2.1, r1.2 ++ r2.2)
    | _ => (st, [])

/-- Deliver a list of messages in order, concatenating the traces. -/
def v1Run (loc : String) (st : V1State) : List Msg → V1State × List (String × JsValue)
  | [] => (st, [])
  | m :: rest =>
    let r := v1HandleMessage loc st m
    let r2 := v1Run loc r.1 rest
    (r2.1, r.2 ++ r2.2)

/-- `getHeaders()` of the refactored class (the hardened class's
`getHeaders` is byte-identical).  The spread `{...this._state.headers}` is
modelled for object-valued headers; `fieldsOf` is `[]` on non-objects. -/
def fieldsOf : JsValue → List (String × JsValue)
  | .obj fields => fields
  | _ => []

def v1GetHeaders (st : V1State) : List (String × JsValue) :=
  let base := insertField (fieldsOf st.headers) "Content-Type" (.str "application/json")
  if jsTruthy st.token then insertField base "X-Auth-Token" st.token
  else if jsTruthy st.jwtToken then
    insertField base "Authorization" (.str ("Bearer " ++ jsDisplay st.jwtToken))
  else base

/-! ### Association-list lemmas -/

theorem lookupField_insertField_self (l : List (String × JsValue)) (k : String) (v : JsValue) :
    lookupField (insertField l k v) k = some v := by
  induction l with
  | nil => simp [insertField, lookupField]
  | cons hd tl ih =>
    by_cases h : hd.1 = k <;> simp [insertField, lookupField, h, ih]

theorem lookupField_insertField_ne (l : List (String × JsValue)) (k k' : String) (v : JsValue)
    (hne : k ≠ k') : lookupField (insertField l k v) k' = lookupField l k' := by
  induction l with
  | nil => simp [insertField, lookupField, hne]
  | cons hd tl ih =>
    by_cases h : hd.1 = k
    · simp [insertField, lookupField, h, hne]
    · by_cases h' : hd.1 = k' <;>
        simp [insertField, lookupField, h, h', ih, Ne.symm hne]

/-! ## Claims C1 and C4 -/

/-- A same-origin inbound message carrying `{event, payload}`. -/
def mkMsg (ev : String) (payload : JsValue) : Msg :=
  ⟨"http://localhost:3000", .obj [("event", .str ev), ("payload", payload)]⟩

/-- The scenario of the spec: token, device, date range, dashboard object. -/
def v1QualifyingPrefix : List Msg :=
  [ mkMsg "receivedToken" (.str "tok-1"),
    mkMsg "selectedDevice" (.str "d1"),
    mkMsg "selectedDashboardDateRange" (.obj [("start", .num 1), ("end", .num 2)]),
    mkMsg "selectedDashboardObject" (.obj [("id", .str "dash")]) ]

/-- A further qualifying message (the readiness predicate keeps holding). -/
def v1ExtraQualifying : Msg := mkMsg "selectedDevice" (.str "d1")

/-- C1: the claim demands that `ready` be published at most once per
instance, in particular that 50 further qualifying messages after the
first cause no further `ready` publication.  Evaluating the refactored
bridge (`_checkReadyState`, which has no one-shot readiness flag) at that
exact scenario: the first four messages publish `ready` once, and each of
the 50 further qualifying messages publishes `ready` again, for 51
publications in total. -/
theorem c1_ready_republished_on_every_qualifying_message :
    ((v1Run "http://localhost:3000" v1FreshState v1QualifyingPrefix).2.countP
        (fun e => e.1 = "ready") = 1)
    ∧ ((v1Run "http://localhost:3000" v1FreshState
          (v1QualifyingPrefix ++ List.replicate 50 v1ExtraQualifying)).2.countP
        (fun e => e.1 = "ready") = 51) := by
  constructor <;> rfl

/-- C4: `getHeaders()` returns the custom headers merged with
`Content-Type: application/json`; it adds `X-Auth-Token` whenever the
plain token is set (JS-truthy), adds `Authorization: Bearer <jwt>` only
when the JWT is set and the plain token is not, and when the plain token
is set it adds no `Authorization` header (the `Authorization` entry of the
result is exactly whatever the custom headers already contained). -/
theorem c4_getHeaders_auth_precedence (st : V1State) :
    (lookupField (v1GetHeaders st) "Content-Type" = some (.str "application/json"))
    ∧ (jsTruthy st.token = true →
        lookupField (v1GetHeaders st) "X-Auth-Token" = some st.token)
    ∧ (jsTruthy st.token = true →
        lookupField (v1GetHeaders st) "Authorization"
          = lookupField (fieldsOf st.headers) "Authorization")
    ∧ (jsTruthy st.token = false → ∀ j : String, st.jwtToken = .str j → j ≠ "" →
        lookupField (v1GetHeaders st) "Authorization" = some (.str ("Bearer " ++ j)))
    ∧ (jsTruthy st.token = false → jsTruthy st.jwtToken = false →
        v1GetHeaders st
          = insertField (fieldsOf st.headers) "Content-Type" (.str "application/json")) := by
  refine ⟨?_, ?_, ?_, ?_, ?_⟩
  · by_cases ht : jsTruthy st.token
    · simp only [v1GetHeaders, ht, if_true]
      rw [lookupField_insertField_ne _ "X-Auth-Token" "Content-Type" _ (by decide)]
      exact lookupField_insertField_self _ _ _
    · by_cases hj : jsTruthy st.jwtToken
      · simp [v1GetHeaders, ht, hj]
        rw [lookupField_insertField_ne _ "Authorization" "Content-Type" _ (by decide)]
        exact lookupField_insertField_self _ _ _
      · simp [v1GetHeaders, ht, hj]
        exact lookupField_insertField_self _ _ _
  · intro ht
    simp only [v1GetHeaders, ht, if_true]
    exact lookupField_insertField_self _ _ _
  · intro ht
    simp only [v1GetHeaders, ht, if_true]
    rw [lookupField_insertField_ne _ "X-Auth-Token" "Authorization" _ (by decide)]
    exact lookupField_insertField_ne _ "Content-Type" "Authorization" _ (by decide)
  · intro ht j hj hne
    have hsj : jsTruthy (JsValue.str j) = true := by simp [jsTruthy, hne]
    simp only [v1GetHeaders, ht, Bool.false_eq_true, if_false, if_true, hj, hsj, jsDisplay]
    exact lookupField_insertField_self _ _ _
  · intro ht hj
    simp [v1GetHeaders, ht, hj]

/-- The bridge state with both a plain token and a JWT token set. -/
def c4BothTokensState : V1State :=
  { v1FreshState with token := .str "plain", jwtToken := .str "jwt-token" }

/-- Concrete instantiation of `c4_getHeaders_auth_precedence`: with both a
plain token and a JWT set, the result carries `X-Auth-Token` and no
`Authorization` header. -/
theorem c4_getHeaders_auth_precedence_witness :
    jsTruthy c4BothTokensState.token = true
    ∧ lookupField (v1GetHeaders c4BothTokensState) "X-Auth-Token" = some (.str "plain")
    ∧ lookupField (v1GetHeaders c4BothTokensState) "Authorization" = none := by
  refine ⟨by decide, ?_, ?_⟩
  · exact (c4_getHeaders_auth_precedence c4BothTokensState).2.1 (by decide)
  · exact ((c4_getHeaders_auth_precedence c4BothTokensState).2.2.1 (by decide)).trans rfl

/-! ## EventBus (`src/EventBus.js` / TS `EventBus.ts`)

Subscriber callbacks are identified by `Nat` identities (JS function
identity); what a callback does when invoked is abstracted by a behaviour
`beh : Nat → JsValue → Bool` — `false` means the callback throws, which
`publish` catches and logs per callback. -/

/-- Generic ordered association list lookup (JS `Map.get`). -/
def alookup {α : Type} : List (String × α) → String → Option α
  | [], _ => none
  | (k, v) :: rest, key => if k = key then some v else alookup rest key

/-- Generic ordered association list update (JS `Map.set`): update in
place when the key exists, append otherwise. -/
def aupdate {α : Type} : List (String × α) → String → α → List (String × α)
  | [], key, v => [(key, v)]
  | (k, w) :: rest, key, v =>
    if k = key then (k, v) :: rest else (k, w) :: aupdate rest key v

theorem alookup_aupdate_self {α : Type} (l : List (String × α)) (k : String) (v : α) :
    alookup (aupdate l k v) k = some v := by
  induction l with
  | nil => simp [aupdate, alookup]
  | cons hd tl ih =>
    by_cases h : hd.1 = k <;> simp [aupdate, alookup, h, ih]

theorem aupdate_aupdate {α : Type} (l : List (String × α)) (k : String) (v w : α) :
    aupdate (aupdate l k v) k w = aupdate l k w := by
  induction l with
  | nil => simp [aupdate]
  | cons hd tl ih =>
    by_cases h : hd.1 = k <;> simp [aupdate, h, ih]

/-- EventBus state: event name to ordered callback list. -/
structure EventBus where
  subscribers : List (String × List Nat)

/-- `new EventBus()`. -/
def EventBus.empty : EventBus := ⟨[]⟩

/-- `subscribe(eventName, callback)`: create the list on first use, then
push the callback. -/
def busSubscribe (bus : EventBus) (ev : String) (cb : Nat) : EventBus :=
  match alookup bus.subscribers ev with
  | none => ⟨aupdate bus.subscribers ev [cb]⟩
  | some cbs => ⟨aupdate bus.subscribers ev (cbs ++ [cb])⟩

/-- `unsubscribe(eventName, callback)`: splice out the first identical
registration, no-op when absent. -/
def busUnsubscribe (bus : EventBus) (ev : String) (cb : Nat) : EventBus :=
  match alookup bus.subscribers ev with
  | none => bus
  | some cbs => ⟨aupdate bus.subscribers ev (cbs.erase cb)⟩

/-- The callbacks `publish` iterates over (empty when the event is
unknown). -/
def busSubscribersOf (bus : EventBus) (ev : String) : List Nat :=
  (alookup bus.subscribers ev).getD []

/-- The `forEach` body of `publish`: invoke each callback with the data
inside `try`/`catch`; a throwing callback (behaviour `false`) is logged
and iteration continues.  Returns the invocation list and the identities
whose callback threw (the logged errors). -/
def invokeAll (d : JsValue) (beh : Nat → JsValue → Bool) :
    List Nat → List (Nat × JsValue) × List Nat
  | [] => ([], [])
  | c :: rest =>
    let r := invokeAll d beh rest
    ((c, d) :: r.1, if beh c d then r.2 else c :: r.2)

/-- `publish(eventName, data)`. -/
def busPublish (bus : EventBus) (ev : String) (d : JsValue)
    (beh : Nat → JsValue → Bool) : List (Nat × JsValue) × List Nat :=
  match alookup bus.subscribers ev with
  | none => ([], [])
  | some cbs => invokeAll d beh cbs

theorem invokeAll_spec (d : JsValue) (beh : Nat → JsValue → Bool) (cbs : List Nat) :
    invokeAll d beh cbs = (cbs.map (fun c => (c, d)), cbs.filter (fun c => !beh c d)) := by
  induction cbs with
  | nil => rfl
  | cons c rest ih =>
    simp only [invokeAll, ih, List.map_cons, List.filter_cons]
    cases h : beh c d <;> simp [h]

/-- C6: `publish` invokes every currently registered subscriber, in
registration order, each with the published data; a throwing subscriber is
caught and logged (it appears in the error log) and does not prevent the
invocation of any other subscriber; publishing an event with no
subscribers produces no invocations and no errors. -/
theorem c6_publish_order_and_error_isolation (bus : EventBus) (ev : String) (d : JsValue)
    (beh : Nat → JsValue → Bool) :
    ((busPublish bus ev d beh).1 = (busSubscribersOf bus ev).map (fun c => (c, d)))
    ∧ ((busPublish bus ev d beh).2 = (busSubscribersOf bus ev).filter (fun c => !beh c d))
    ∧ (busSubscribersOf bus ev = [] → busPublish bus ev d beh = ([], [])) := by
  have hmain : busPublish bus ev d beh
      = ((busSubscribersOf bus ev).map (fun c => (c, d)),
         (busSubscribersOf bus ev).filter (fun c => !beh c d)) := by
    simp only [busPublish, busSubscribersOf]
    cases h : alookup bus.subscribers ev <;> simp [invokeAll_spec, h]
  refine ⟨by rw [hmain], by rw [hmain], ?_⟩
  intro h0
  rw [hmain, h0]
  simp

/-- Concrete instantiation of `c6_publish_order_and_error_isolation`: on a
bus with subscribers `[throws, succeeds]` (identity 0 throws), both run in
order with the data, the throw is logged, and publishing an event with no
subscribers is a no-op. -/
theorem c6_publish_order_and_error_isolation_witness :
    ((busPublish ⟨[("evt", [0, 1])]⟩ "evt" (.str "data") (fun c _ => c != 0)).1
        = [(0, .str "data"), (1, .str "data")])
    ∧ ((busPublish ⟨[("evt", [0, 1])]⟩ "evt" (.str "data") (fun c _ => c != 0)).2 = [0])
    ∧ busPublish ⟨[("evt", [0, 1])]⟩ "other" (.str "data") (fun c _ => c != 0) = ([], []) := by
  refine ⟨?_, ?_, ?_⟩
  · exact (c6_publish_order_and_error_isolation ⟨[("evt", [0, 1])]⟩ "evt" (.str "data")
      (fun c _ => c != 0)).1.trans rfl
  · exact (c6_publish_order_and_error_isolation ⟨[("evt", [0, 1])]⟩ "evt" (.str "data")
      (fun c _ => c != 0)).2.1.trans rfl
  · exact (c6_publish_order_and_error_isolation ⟨[("evt", [0, 1])]⟩ "other" (.str "data")
      (fun c _ => c != 0)).2.2 rfl

/-! ## TypeScript EventEmitter (`src/libs/event-emitter.ts`)

`events : Map<string, Set<EventHandler>>`.  A JS `Set` preserves insertion
order and de-duplicates by identity; it is modelled as a duplicate-free
ordered list with `setAdd`. -/

/-- `Set.add`: no-op when the element is already present, append otherwise. -/
def setAdd (l : List Nat) (h : Nat) : List Nat :=
  if h ∈ l then l else l ++ [h]

/-- EventEmitter state. -/
structure Emitter where
  events : List (String × List Nat)

/-- A fresh emitter. -/
def Emitter.empty : Emitter := ⟨[]⟩

/-- `on(event, handler)` (state effect): create the `Set` on first use,
then `add` the handler.  The returned unsubscribe closure is modelled
separately (`UnsubToken`). -/
def emOn (em : Emitter) (ev : String) (h : Nat) : Emitter :=
  match alookup em.events ev with
  | none => ⟨aupdate em.events ev [h]⟩
  | some s => ⟨aupdate em.events ev (setAdd s h)⟩

/-- `off(event, handler)`: delete the handler; drop the event entry when
its set becomes empty; no-op when the event is unknown. -/
def emOff (em : Emitter) (ev : String) (h : Nat) : Emitter :=
  match alookup em.events ev with
  | none => em
  | some s =>
    let s' := s.erase h
    if s' = [] then ⟨em.events.filter (fun p => p.1 != ev)⟩
    else ⟨aupdate em.events ev s'⟩

/-- `emit(event, payload)`: iterate the handler set with a per-handler
`try`/`catch` (same loop body as the EventBus `publish`); unknown events
return at once. -/
def emEmit (em : Emitter) (ev : String) (payload : JsValue)
    (beh : Nat → JsValue → Bool) : List (Nat × JsValue) × List Nat :=
  match alookup em.events ev with
  | none => ([], [])
  | some s => invokeAll payload beh s

/-- `removeAllListeners()`. -/
def emRemoveAll (_em : Emitter) : Emitter := ⟨[]⟩

/-- `listenerCount(event)`: `this.events.get(event)?.size ?? 0`. -/
def emListenerCount (em : Emitter) (ev : String) : Nat :=
  ((alookup em.events ev).map List.length).getD 0

theorem setAdd_mem_self (l : List Nat) (h : Nat) : h ∈ setAdd l h := by
  by_cases hm : h ∈ l <;> simp [setAdd, hm]

theorem setAdd_setAdd (l : List Nat) (h : Nat) : setAdd (setAdd l h) h = setAdd l h := by
  by_cases hm : h ∈ l <;> simp [setAdd, hm]

/-- C10: registration in the TypeScript EventEmitter is de-duplicated by
handler identity — a second `on(event, handler)` with the same handler is
a no-op on the emitter state; from a fresh emitter, two identical `on`
calls leave `listenerCount(event) = 1` and a single `emit` invokes the
handler exactly once. -/
theorem c10_emitter_on_is_idempotent (em : Emitter) (ev : String) (h : Nat)
    (payload : JsValue) (beh : Nat → JsValue → Bool) :
    (emOn (emOn em ev h) ev h = emOn em ev h)
    ∧ (emListenerCount (emOn (emOn Emitter.empty ev h) ev h) ev = 1)
    ∧ ((emEmit (emOn (emOn Emitter.empty ev h) ev h) ev payload beh).1.countP
        (fun i => i.1 = h) = 1) := by
  refine ⟨?_, ?_, ?_⟩
  · cases hl : alookup em.events ev with
    | none =>
      simp only [emOn, hl, alookup_aupdate_self]
      simp [setAdd, aupdate_aupdate]
    | some s =>
      simp only [emOn, hl, alookup_aupdate_self]
      simp [setAdd_setAdd, aupdate_aupdate]
  · simp [emOn, Emitter.empty, alookup, aupdate, setAdd, emListenerCount]
  · simp [emOn, Emitter.empty, alookup, aupdate, setAdd, emEmit, invokeAll_spec,
      List.countP_cons]

/-! ## TypeScript bridge (`src/ubidots.ts`) -/

/-- The regex `^v\d+:[a-z:]+$`: `v`, one or more digits, a colon, then one
or more characters from `[a-z:]`. -/
def versionedPattern (s : String) : Bool :=
  match s.data with
  | 'v' :: rest =>
    let ds := rest.takeWhile Char.isDigit
    let after := rest.dropWhile Char.isDigit
    decide (ds ≠ []) &&
      match after with
      | ':' :: tail => decide (tail ≠ []) && tail.all (fun c => c.isLower || c = ':')
      | _ => false
  | _ => false

/-- `isValidEventFormat`: versioned pattern or one of the version-agnostic
events. -/
def isValidEventFormat (s : String) : Bool :=
  versionedPattern s || ["error", "ready", "destroy"].contains s

/-- An ASCII apostrophe (written via its code point). -/
def apos : String := ⟨[Char.ofNat 39]⟩

/-- The payload `emitError` builds (the contents of the `stack` trace are
not modelled). -/
def errorData (message : String) (context : String) (now : Rat) : JsValue :=
  .obj [("message", .str message), ("name", .str "Error"), ("stack", .undefined),
        ("context", .str context), ("timestamp", .num now)]

/-- The message of the `Error` thrown by `validateEndpoint`. -/
def invalidFormatMessage (ev : String) : String :=
  "Invalid event format: " ++ ev ++ ". Expected format: " ++ apos ++ "vX:event:name" ++ apos
    ++ " or version-agnostic events (error, ready, destroy)"

/-- The unsubscribe value `on`/`once` return: either the shared `noop`
or a real closure over `(event, handler)`. -/
inductive UnsubToken where
  | noop
  | unsub (ev : String) (h : Nat)

/-- Calling the returned unsubscribe function. -/
def runUnsub (em : Emitter) : UnsubToken → Emitter
  | .noop => em
  | .unsub ev h => emOff em ev h

/-- `ubidots.on(event, handler)`: `validateEndpoint` failure emits the
`error` event with context `on` and returns `noop`; otherwise the handler
is registered and a real unsubscribe closure is returned.  The result is
(new emitter state, returned unsubscribe value, subscriber invocations). -/
def uOn (em : Emitter) (ev : String) (h : Nat) (beh : Nat → JsValue → Bool)
    (now : Rat) : Emitter × UnsubToken × List (Nat × JsValue) :=
  if isValidEventFormat ev then (emOn em ev h, .unsub ev h, [])
  else (em, .noop, (emEmit em "error" (errorData (invalidFormatMessage ev) "on" now) beh).1)

/-- C7: for every event name that is not a valid endpoint, `on` registers
nothing (the emitter state is unchanged), returns the callable no-op
unsubscribe value rather than `undefined` (and calling it is a safe
no-op), and publishes an `error` event whose payload carries
`context: 'on'` to every current `error` subscriber. -/
theorem c7_on_invalid_endpoint_safe (em : Emitter) (ev : String) (h : Nat)
    (beh : Nat → JsValue → Bool) (now : Rat) (hinv : isValidEventFormat ev = false) :
    ((uOn em ev h beh now).1 = em)
    ∧ ((uOn em ev h beh now).2.1 = .noop)
    ∧ (runUnsub (uOn em ev h beh now).1 (uOn em ev h beh now).2.1 = em)
    ∧ ((uOn em ev h beh now).2.2
        = ((alookup em.events "error").getD []).map
            (fun c => (c, errorData (invalidFormatMessage ev) "on" now)))
    ∧ (getProp (errorData (invalidFormatMessage ev) "on" now) "context" = .str "on") := by
  refine ⟨?_, ?_, ?_, ?_, ?_⟩
  · simp [uOn, hinv]
  · simp [uOn, hinv]
  · simp [uOn, hinv, runUnsub]
  · simp only [uOn, hinv, Bool.false_eq_true, if_false, emEmit]
    cases hl : alookup em.events "error" <;> simp [invokeAll_spec, hl]
  · rfl

/-- Concrete instantiation of `c7_on_invalid_endpoint_safe` at the invalid
endpoint name `selectedDevice` (not versioned, not version-agnostic), on
an emitter with one `error` subscriber. -/
theorem c7_on_invalid_endpoint_safe_witness :
    ((uOn ⟨[("error", [3])]⟩ "selectedDevice" 9 (fun _ _ => true) 5).1 = ⟨[("error", [3])]⟩)
    ∧ ((uOn ⟨[("error", [3])]⟩ "selectedDevice" 9 (fun _ _ => true) 5).2.2
        = [(3, errorData (invalidFormatMessage "selectedDevice") "on" 5)]) := by
  refine ⟨?_, ?_⟩
  · exact (c7_on_invalid_endpoint_safe ⟨[("error", [3])]⟩ "selectedDevice" 9
      (fun _ _ => true) 5 rfl).1
  · exact ((c7_on_invalid_endpoint_safe ⟨[("error", [3])]⟩ "selectedDevice" 9
      (fun _ _ => true) 5 rfl).2.2.2.1).trans rfl

/-! ### Window listener registry and `destroy`

`addEventListener`/`removeEventListener` match listeners by function
identity; every evaluation of `this.handleMessage.bind(this)` produces a
fresh function.  Bound-function identities are drawn from a counter. -/

/-- The TypeScript bridge instance: emitter state, the window `message`
listener registry (identities of `handleMessage` bindings, in registration
order), and the source of fresh bound-function identities. -/
structure TsUbidots where
  em : Emitter
  winListeners : List Nat
  nextBindId : Nat

/-- `new Ubidots()`: `setupPostMessageListener` registers a fresh
`this.handleMessage.bind(this)` (identity 0).  (The constructor also
schedules a `ready` emission via `setTimeout`; it does not affect the
destroy behaviour modelled here.) -/
def tsConstruct : TsUbidots := ⟨Emitter.empty, [0], 1⟩

/-- `isValidPostMessage(data)`: truthy object with
`type === 'ubidots:event'` and a string `event` field. -/
def isValidPostMessage (d : JsValue) : Bool :=
  jsTruthy d &&
    (match d with | .obj _ => true | .arr _ => true | _ => false) &&
    (match getProp d "type" with | .str s => s = "ubidots:event" | _ => false) &&
    (match getProp d "event" with | .str _ => true | _ => false)

/-- `handleMessage(event)`: origin check, envelope check, endpoint-format
check (invalid formats surface as an `error` publication with context
`handleMessage`), then `super.emit(eventName, payload)`.  Returns the
subscriber invocations. -/
def tsHandleMessage (loc : String) (em : Emitter) (m : Msg)
    (beh : Nat → JsValue → Bool) (now : Rat) : List (Nat × JsValue) :=
  if m.origin ≠ loc then []
  else if ¬ isValidPostMessage m.data then []
  else
    match getProp m.data "event" with
    | .str ev =>
      if isValidEventFormat ev then (emEmit em ev (getProp m.data "payload") beh).1
      else
        (emEmit em "error"
          (errorData ("Invalid event format from parent: " ++ ev) "handleMessage" now) beh).1
    | _ => []

/-- Dispatch one window `message` event: every registered listener is a
binding of `handleMessage` and runs it. -/
def tsDeliver (loc : String) (u : TsUbidots) (m : Msg)
    (beh : Nat → JsValue → Bool) (now : Rat) : List (Nat × JsValue) :=
  (u.winListeners.map (fun _ => tsHandleMessage loc u.em m beh now)).flatten

/-- `destroy()`: emit `destroy`, then
`removeEventListener('message', this.handleMessage.bind(this))` — the
argument is a *fresh* binding (identity `nextBindId`), so the erase
matches nothing — then `removeAllListeners()`.  Nothing in the body can
throw, so the `catch` branch (context `destroy`) is dead. -/
def tsDestroy (u : TsUbidots) (beh : Nat → JsValue → Bool) (now : Rat) :
    TsUbidots × List (Nat × JsValue) :=
  let inv := (emEmit u.em "destroy" (.obj [("timestamp", .num now)]) beh).1
  let freshBinding := u.nextBindId
  ( { em := emRemoveAll u.em,
      winListeners := u.winListeners.erase freshBinding,
      nextBindId := freshBinding + 1 },
    inv )

/-- `ubidots.on` including its effect on the full instance (the window
registry is untouched by `on`). -/
def tsOn (u : TsUbidots) (ev : String) (h : Nat) (beh : Nat → JsValue → Bool)
    (now : Rat) : TsUbidots × UnsubToken × List (Nat × JsValue) :=
  let r := uOn u.em ev h beh now
  ({ u with em := r.1 }, r.2.1, r.2.2)

/-- The post-`destroy` scenario: destroy the fresh instance, then register
a `ready` handler (identity 7), then deliver a valid same-origin envelope
for `ready`. -/
def c3Loc : String := "http://localhost:3000"

def c3AfterDestroy : TsUbidots :=
  (tsDestroy tsConstruct (fun _ _ => true) 0).1

def c3Resubscribed : TsUbidots :=
  (tsOn c3AfterDestroy "ready" 7 (fun _ _ => true) 1).1

def c3ReadyEnvelope : Msg :=
  ⟨c3Loc, .obj [("type", .str "ubidots:event"), ("event", .str "ready"),
                ("payload", .str "hello")]⟩

/-- C3: evaluating `destroy()` on the TypeScript bridge shows the claim
fails on the code: `removeEventListener` is handed a fresh
`this.handleMessage.bind(this)` instead of the listener registered at
construction, so after `destroy()` the window listener registry still
holds the original listener; a handler registered afterwards receives a
subsequently delivered valid inbound message (so the instance is not
terminal).  The idempotence half of the claim does hold: a second
`destroy()` runs to completion (its `catch` branch is dead) and emits
nothing because all subscriptions are cleared. -/
theorem c3_destroy_leaves_listener_attached :
    (c3AfterDestroy.winListeners = [0])
    ∧ (tsDeliver c3Loc c3Resubscribed c3ReadyEnvelope (fun _ _ => true) 2
        = [(7, .str "hello")])
    ∧ ((tsDestroy c3AfterDestroy (fun _ _ => true) 3).1.winListeners = [0]
        ∧ (tsDestroy c3AfterDestroy (fun _ _ => true) 3).2 = []) := by
  refine ⟨rfl, rfl, rfl, rfl⟩

/-! ## Sanitizer (`_sanitizeData` of the hardened class in `src/Ubidots.js`)

Each regex replacement of the string branch is implemented as a
left-to-right scan (`replaceScan`) with a matcher that recognises the
regex at the head of the input and returns the remainder after the match —
exactly the semantics of a global `String.replace`. -/

/-- Left and right curly brace characters (written via code points). -/
def lbrace : Char := Char.ofNat 123

def rbrace : Char := Char.ofNat 125

/-- Case-insensitive character comparison. -/
def lowerEq (a b : Char) : Bool := a.toLower = b.toLower

/-- `\w` of JS regexes. -/
def isWordChar (c : Char) : Bool := c.isAlphanum || c = '_'

/-- Strip a literal pattern (case-insensitively) from the head of the
input, returning the remainder. -/
def stripCI : List Char → List Char → Option (List Char)
  | [], l => some l
  | _ :: _, [] => none
  | p :: ps, c :: cs => if lowerEq c p then stripCI ps cs else none

/-- Does the input contain the pattern (case-insensitively)? -/
def containsCI (pat : List Char) : List Char → Bool
  | [] => (stripCI pat []).isSome
  | l@(_ :: cs) => (stripCI pat l).isSome || containsCI pat cs

/-- After an opening tag: `[^<]*(?:(?!CLOSE)<[^<]*)*CLOSE` — skip to each
`<`, accept as soon as the close tag starts there. -/
def blockAfterOpen (close : List Char) : Nat → List Char → Option (List Char)
  | 0, _ => none
  | fuel + 1, l =>
    let l1 := l.dropWhile (fun c => c ≠ '<')
    match stripCI close l1 with
    | some rest => some rest
    | none =>
      match l1 with
      | '<' :: cs => blockAfterOpen close fuel cs
      | _ => none

/-- `<TAG\b[^<]*(?:(?!</TAG>)<[^<]*)*</TAG>` (case-insensitive): used for
the `<script>` and `<iframe>` block removals. -/
def matchTagBlock (openTag close : List Char) (input : List Char) : Option (List Char) :=
  match stripCI openTag input with
  | none => none
  | some rest =>
    match rest with
    | c :: _ => if isWordChar c then none else blockAfterOpen close (rest.length + 1) rest
    | [] => none

/-- `<\s*img[^>]*onerror[^>]*>` (case-insensitive). -/
def matchImgOnerror (input : List Char) : Option (List Char) :=
  match input with
  | '<' :: cs =>
    let cs1 := cs.dropWhile Char.isWhitespace
    match stripCI ['i', 'm', 'g'] cs1 with
    | none => none
    | some cs2 =>
      let body := cs2.takeWhile (fun c => c ≠ '>')
      match cs2.dropWhile (fun c => c ≠ '>') with
      | '>' :: tail =>
        if containsCI ['o', 'n', 'e', 'r', 'r', 'o', 'r'] body then some tail else none
      | _ => none
  | _ => none

/-- Does the (inside-tag) body contain `style\s*=` followed somewhere by
`expression` (case-insensitive)?  The body never crosses a `>`. -/
def styleExprInBody : List Char → Bool
  | [] => false
  | l@(_ :: cs) =>
    (match stripCI ['s', 't', 'y', 'l', 'e'] l with
     | some r1 =>
       (match r1.dropWhile Char.isWhitespace with
        | '=' :: r2 => containsCI ['e', 'x', 'p', 'r', 'e', 's', 's', 'i', 'o', 'n'] r2
        | _ => false)
     | none => false)
    || styleExprInBody cs

/-- `<[^>]*style\s*=[^>]*expression[^>]*>` (case-insensitive). -/
def matchStyleExpression (input : List Char) : Option (List Char) :=
  match input with
  | '<' :: cs =>
    let body := cs.takeWhile (fun c => c ≠ '>')
    match cs.dropWhile (fun c => c ≠ '>') with
    | '>' :: tail => if styleExprInBody body then some tail else none
    | _ => none
  | _ => none

/-- `on\w+=Q[^Q]*Q` for a quote character `Q` (case-sensitive, matching
the `on\w+="[^"]*"` and `on\w+='[^']*'` replacements). -/
def matchOnAttr (q : Char) (input : List Char) : Option (List Char) :=
  match input with
  | 'o' :: 'n' :: cs =>
    if (cs.takeWhile isWordChar) = [] then none
    else
      match cs.dropWhile isWordChar with
      | '=' :: c1 :: rest1 =>
        if c1 = q then
          match rest1.dropWhile (fun c => c ≠ q) with
          | _ :: tail => some tail
          | [] => none
        else none
      | _ => none
  | _ => none

/-- `javascript:` (case-insensitive). -/
def matchJsUri (input : List Char) : Option (List Char) :=
  stripCI "javascript:".data input

/-- Largest end position of a case-insensitive occurrence of `pat`
(rightmost match, as the backtracking greedy `[^;]*script` produces). -/
def lastEndCI (pat : List Char) : List Char → Option Nat
  | [] => if pat = [] then some 0 else none
  | c :: cs =>
    match lastEndCI pat cs with
    | some n => some (n + 1)
    | none => if (stripCI pat (c :: cs)).isSome then some pat.length else none

/-- `data:\s*[^;]*script` (case-insensitive): the greedy `[^;]*`
backtracks to the rightmost `script` inside the `;`-free span. -/
def matchDataScript (input : List Char) : Option (List Char) :=
  match stripCI "data:".data input with
  | none => none
  | some r1 =>
    let span := r1.takeWhile (fun c => c ≠ ';')
    match lastEndCI "script".data span with
    | some n => some (r1.drop n)
    | none => none

/-- Global replace: scan left to right, replacing each leftmost match and
continuing after it (the semantics of `String.replace` with a `g` flag).
Every matcher consumes at least one character, so fuel `input.length`
suffices. -/
def replaceScan (matcher : List Char → Option (List Char)) (repl : List Char) :
    Nat → List Char → List Char
  | 0, l => l
  | _, [] => []
  | fuel + 1, l@(c :: cs) =>
    match matcher l with
    | some rest => repl ++ replaceScan matcher repl fuel rest
    | none => c :: replaceScan matcher repl fuel cs

def replaceAllWith (matcher : List Char → Option (List Char)) (repl : String)
    (s : String) : String :=
  ⟨replaceScan matcher repl.data s.data.length s.data⟩

/-- The string branch of `_sanitizeData`: the eight chained replacements. -/
def sanitizeString (s : String) : String :=
  s
  |> replaceAllWith (matchTagBlock "<script".data "</script>".data) ""
  |> replaceAllWith (matchTagBlock "<iframe".data "</iframe>".data) ""
  |> replaceAllWith matchImgOnerror ""
  |> replaceAllWith matchStyleExpression ""
  |> replaceAllWith (matchOnAttr '"') ""
  |> replaceAllWith (matchOnAttr (Char.ofNat 39)) ""
  |> replaceAllWith matchJsUri ""
  |> replaceAllWith matchDataScript "data-blocked"

/-- The prototype-pollution guard list. -/
def dangerousKey (k : String) : Bool :=
  ["__proto__", "constructor", "prototype"].contains k

mutual

/-- `_sanitizeData`: `null`/`undefined` pass through, strings run the
replacement chain, arrays sanitize element-wise, objects sanitize own
enumerable keys in order (the `for...in` loop) while skipping the
dangerous keys, and other scalars pass through. -/
def sanitizeData : JsValue → JsValue
  | .undefined => .undefined
  | .null => .null
  | .bool b => .bool b
  | .num q => .num q
  | .str s => .str (sanitizeString s)
  | .arr l => .arr (sanitizeArr l)
  | .obj kvs => .obj (sanitizeObjFields kvs)

def sanitizeArr : List JsValue → List JsValue
  | [] => []
  | v :: rest => sanitizeData v :: sanitizeArr rest

def sanitizeObjFields : List (String × JsValue) → List (String × JsValue)
  | [] => []
  | (k, v) :: rest =>
    if dangerousKey k then sanitizeObjFields rest
    else (k, sanitizeData v) :: sanitizeObjFields rest

end

theorem sanitizeArr_eq_map (l : List JsValue) : sanitizeArr l = l.map sanitizeData := by
  induction l with
  | nil => rw [sanitizeArr]; rfl
  | cons v rest ih => rw [sanitizeArr, ih]; rfl

theorem sanitizeObjFields_eq (kvs : List (String × JsValue)) :
    sanitizeObjFields kvs
      = (kvs.filter (fun kv => !dangerousKey kv.1)).map
          (fun kv => (kv.1, sanitizeData kv.2)) := by
  induction kvs with
  | nil => rw [sanitizeObjFields]; rfl
  | cons kv rest ih =>
    obtain ⟨k, v⟩ := kv
    rw [sanitizeObjFields, ih]
    by_cases h : dangerousKey k <;> simp [h, List.filter_cons]

/-! ## `_validateJWT` and `_base64UrlDecode` (hardened class)

`_base64UrlDecode` maps `-`/`_` back to `+`/`/`, pads with `=`, runs
`atob` (forgiving base64, which throws on invalid input, modelled as
`none`) and then UTF-8-decodes the byte string through the
percent-encoding/`decodeURIComponent` round trip (strict UTF-8, throwing
— `none` — on malformed sequences). -/

/-- JS `split('.')`. -/
def splitOnDotChars : List Char → List (List Char)
  | [] => [[]]
  | c :: rest =>
    let r := splitOnDotChars rest
    if c = '.' then [] :: r
    else
      match r with
      | h :: t => (c :: h) :: t
      | [] => [[c]]

def splitOnDot (s : String) : List String :=
  (splitOnDotChars s.data).map (fun l => ⟨l⟩)

/-- Value of a base64 alphabet character. -/
def base64CharVal (c : Char) : Option Nat :=
  if 'A' ≤ c ∧ c ≤ 'Z' then some (c.toNat - 65)
  else if 'a' ≤ c ∧ c ≤ 'z' then some (c.toNat - 71)
  else if '0' ≤ c ∧ c ≤ '9' then some (c.toNat + 4)
  else if c = '+' then some 62
  else if c = '/' then some 63
  else none

/-- Decode cleaned base64 characters, four at a time (a trailing group of
two or three characters yields one or two bytes). -/
def b64Groups : List Char → Option (List Nat)
  | [] => some []
  | c1 :: c2 :: c3 :: c4 :: rest => do
    let v1 ← base64CharVal c1
    let v2 ← base64CharVal c2
    let v3 ← base64CharVal c3
    let v4 ← base64CharVal c4
    let bs ← b64Groups rest
    pure ([v1 * 4 + v2 / 16, v2 % 16 * 16 + v3 / 4, v3 % 4 * 64 + v4] ++ bs)
  | [c1, c2, c3] => do
    let v1 ← base64CharVal c1
    let v2 ← base64CharVal c2
    let v3 ← base64CharVal c3
    pure [v1 * 4 + v2 / 16, v2 % 16 * 16 + v3 / 4]
  | [c1, c2] => do
    let v1 ← base64CharVal c1
    let v2 ← base64CharVal c2
    pure [v1 * 4 + v2 / 16]
  | [_] => none

/-- ASCII whitespace stripped by forgiving base64. -/
def asciiWs (c : Char) : Bool :=
  c = ' ' || c = '\t' || c = '\n' || c = '\r' || c = Char.ofNat 12

/-- Remove up to two trailing `=` characters. -/
def dropTrailingEq (l : List Char) : List Char :=
  match l.reverse with
  | '=' :: '=' :: rest => rest.reverse
  | '=' :: rest => rest.reverse
  | _ => l

/-- `atob` (WHATWG forgiving base64): strip ASCII whitespace, drop up to
two trailing `=` when the length is a multiple of four, reject a length
of 1 mod 4 and any remaining non-alphabet character. -/
def atob (s : String) : Option (List Nat) :=
  let cleaned := s.data.filter (fun c => !asciiWs c)
  let trimmed := if cleaned.length % 4 = 0 then dropTrailingEq cleaned else cleaned
  if trimmed.length % 4 = 1 then none else b64Groups trimmed

/-- Is a byte a UTF-8 continuation byte? -/
def isCont (b : Nat) : Bool := 128 ≤ b && b < 192

/-- Strict UTF-8 decoding of a byte list (what
`decodeURIComponent('%..%..')` performs); malformed or overlong sequences
and encoded surrogates yield `none` (a thrown `URIError`). -/
def utf8Decode : List Nat → Option (List Char)
  | [] => some []
  | b :: rest =>
    if b < 128 then do
      let cs ← utf8Decode rest
      pure (Char.ofNat b :: cs)
    else if b < 192 then none
    else if b < 224 then
      match rest with
      | b2 :: rest2 =>
        if isCont b2 then
          let cp := (b - 192) * 64 + (b2 - 128)
          if cp < 128 then none
          else do
            let cs ← utf8Decode rest2
            pure (Char.ofNat cp :: cs)
        else none
      | _ => none
    else if b < 240 then
      match rest with
      | b2 :: b3 :: rest2 =>
        if isCont b2 && isCont b3 then
          let cp := (b - 224) * 4096 + (b2 - 128) * 64 + (b3 - 128)
          if cp < 2048 || (55296 ≤ cp && cp < 57344) then none
          else do
            let cs ← utf8Decode rest2
            pure (Char.ofNat cp :: cs)
        else none
      | _ => none
    else if b < 248 then
      match rest with
      | b2 :: b3 :: b4 :: rest2 =>
        if isCont b2 && isCont b3 && isCont b4 then
          let cp := (b - 240) * 262144 + (b2 - 128) * 4096 + (b3 - 128) * 64 + (b4 - 128)
          if cp < 65536 || 1114111 < cp then none
          else do
            let cs ← utf8Decode rest2
            pure (Char.ofNat cp :: cs)
        else none
      | _ => none
    else none

/-- `_base64UrlDecode`: `-`→`+`, `_`→`/`, pad with `=` to a multiple of
four, `atob`, then the percent-decode round trip (UTF-8). -/
def base64UrlDecode (s : String) : Option String := do
  let b64 := s.data.map (fun c => if c = '-' then '+' else if c = '_' then '/' else c)
  let padded := b64 ++ List.replicate ((4 - b64.length % 4) % 4) '='
  let bytes ← atob ⟨padded⟩
  let cs ← utf8Decode bytes
  pure ⟨cs⟩

/-! ### A JSON parser (`JSON.parse`)

Recursive-descent with fuel; parse failure and fuel exhaustion are `none`
(a thrown `SyntaxError`, caught by `_validateJWT`).  A lone escaped
surrogate (which `JSON.parse` tolerates, producing an unpaired UTF-16
code unit) is not representable in a `Char` and yields `none`; no
modelled input contains one. -/

/-- JSON insignificant whitespace. -/
def skipWs (l : List Char) : List Char :=
  l.dropWhile (fun c => c = ' ' || c = '\t' || c = '\n' || c = '\r')

def hexVal (c : Char) : Option Nat :=
  if '0' ≤ c ∧ c ≤ '9' then some (c.toNat - 48)
  else if 'a' ≤ c ∧ c ≤ 'f' then some (c.toNat - 87)
  else if 'A' ≤ c ∧ c ≤ 'F' then some (c.toNat - 55)
  else none

def digitsToNat (l : List Char) : Nat :=
  l.foldl (fun a c => a * 10 + (c.toNat - 48)) 0

/-- JSON string contents after the opening quote: returns the decoded
characters and the input after the closing quote. -/
def parseStrChars : List Char → Option (List Char × List Char)
  | [] => none
  | c :: rest =>
    if c = '"' then some ([], rest)
    else if c = '\\' then
      match rest with
      | [] => none
      | e :: rest2 =>
        if e = '"' || e = '\\' || e = '/' then
          match parseStrChars rest2 with
          | some (cs, r) => some (e :: cs, r)
          | none => none
        else if e = 'b' || e = 'f' || e = 'n' || e = 'r' || e = 't' then
          let ch : Char :=
            if e = 'b' then Char.ofNat 8
            else if e = 'f' then Char.ofNat 12
            else if e = 'n' then Char.ofNat 10
            else if e = 'r' then Char.ofNat 13
            else Char.ofNat 9
          match parseStrChars rest2 with
          | some (cs, r) => some (ch :: cs, r)
          | none => none
        else if e = 'u' then
          match rest2 with
          | h1 :: h2 :: h3 :: h4 :: rest3 =>
            match hexVal h1, hexVal h2, hexVal h3, hexVal h4 with
            | some v1, some v2, some v3, some v4 =>
              let cp := v1 * 4096 + v2 * 256 + v3 * 16 + v4
              if 55296 ≤ cp ∧ cp < 56320 then
                -- high surrogate: require an escaped low surrogate
                match rest3 with
                | '\\' :: 'u' :: g1 :: g2 :: g3 :: g4 :: rest4 =>
                  match hexVal g1, hexVal g2, hexVal g3, hexVal g4 with
                  | some w1, some w2, some w3, some w4 =>
                    let lo := w1 * 4096 + w2 * 256 + w3 * 16 + w4
                    if 56320 ≤ lo ∧ lo < 57344 then
                      let full := 65536 + (cp - 55296) * 1024 + (lo - 56320)
                      match parseStrChars rest4 with
                      | some (cs, r) => some (Char.ofNat full :: cs, r)
                      | none => none
                    else none
                  | _, _, _, _ => none
                | _ => none
              else if 56320 ≤ cp ∧ cp < 57344 then none
              else
                match parseStrChars rest3 with
                | some (cs, r) => some (Char.ofNat cp :: cs, r)
                | none => none
            | _, _, _, _ => none
          | _ => none
        else none
    else if c.toNat < 32 then none
    else
      match parseStrChars rest with
      | some (cs, r) => some (c :: cs, r)
      | none => none

/-- JSON number at the head of the input. -/
def parseJsonNumber (l : List Char) : Option (Rat × List Char) :=
  let neg : Bool := match l with | '-' :: _ => true | _ => false
  let l1 := match l with | '-' :: r => r | _ => l
  match l1 with
  | [] => none
  | c :: tl =>
    if ¬ c.isDigit then none
    else if (c == '0') && (match tl with | d :: _ => d.isDigit | [] => false) then none
    else
      let ints := l1.takeWhile Char.isDigit
      let r1 := l1.dropWhile Char.isDigit
      let hasFrac : Bool := match r1 with
        | '.' :: d :: _ => d.isDigit
        | _ => false
      let fr := if hasFrac then (r1.drop 1).takeWhile Char.isDigit else []
      let r2 := if hasFrac then (r1.drop 1).dropWhile Char.isDigit else r1
      let expSpec : Option (Bool × List Char × List Char) := match r2 with
        | e :: rest =>
          if e = 'e' ∨ e = 'E' then
            match rest with
            | '+' :: d :: _ =>
              if d.isDigit then
                some (false, (rest.drop 1).takeWhile Char.isDigit,
                  (rest.drop 1).dropWhile Char.isDigit)
              else none
            | '-' :: d :: _ =>
              if d.isDigit then
                some (true, (rest.drop 1).takeWhile Char.isDigit,
                  (rest.drop 1).dropWhile Char.isDigit)
              else none
            | d :: _ =>
              if d.isDigit then
                some (false, rest.takeWhile Char.isDigit, rest.dropWhile Char.isDigit)
              else none
            | [] => none
          else none
        | [] => none
      let eneg := match expSpec with | some (b, _, _) => b | none => false
      let edigits : List Char := match expSpec with | some (_, d, _) => d | none => []
      let r3 := match expSpec with | some (_, _, r) => r | none => r2
      let m : Nat := digitsToNat ints * 10 ^ fr.length + digitsToNat fr
      let e : Nat := digitsToNat edigits
      let mag : Rat :=
        if eneg then mkRat m (10 ^ fr.length * 10 ^ e) else mkRat (m * 10 ^ e) (10 ^ fr.length)
      some ((if neg then -mag else mag), r3)

mutual

/-- JSON value at the head of the input (after whitespace); `fuel` bounds
the recursion depth. -/
def parseJsonVal : Nat → List Char → Option (JsValue × List Char)
  | 0, _ => none
  | fuel + 1, input =>
    match skipWs input with
    | [] => none
    | c :: rest =>
      if c = '"' then
        match parseStrChars rest with
        | some (cs, r) => some (.str ⟨cs⟩, r)
        | none => none
      else if c = 't' then
        match rest with
        | 'r' :: 'u' :: 'e' :: r => some (.bool true, r)
        | _ => none
      else if c = 'f' then
        match rest with
        | 'a' :: 'l' :: 's' :: 'e' :: r => some (.bool false, r)
        | _ => none
      else if c = 'n' then
        match rest with
        | 'u' :: 'l' :: 'l' :: r => some (.null, r)
        | _ => none
      else if c = '[' then
        match skipWs rest with
        | ']' :: r => some (.arr [], r)
        | _ => parseJsonArrItems fuel rest []
      else if c = lbrace then
        match skipWs rest with
        | b :: r => if b = rbrace then some (.obj [], r) else parseJsonObjItems fuel rest []
        | [] => none
      else parseJsonNumber (c :: rest) |>.map (fun x => (.num x.1, x.2))
termination_by structural fuel => fuel

/-- Comma-separated array elements (accumulator in reverse). -/
def parseJsonArrItems (fuel : Nat) (input : List Char) (acc : List JsValue) :
    Option (JsValue × List Char) :=
  match fuel with
  | 0 => none
  | fuel + 1 =>
    match parseJsonVal fuel input with
    | none => none
    | some (v, r) =>
      match skipWs r with
      | ',' :: r2 => parseJsonArrItems fuel r2 (v :: acc)
      | ']' :: r2 => some (.arr (v :: acc).reverse, r2)
      | _ => none
termination_by structural fuel

/-- Comma-separated object members; duplicate keys overwrite in place as
in `JSON.parse`. -/
def parseJsonObjItems (fuel : Nat) (input : List Char) (acc : List (String × JsValue)) :
    Option (JsValue × List Char) :=
  match fuel with
  | 0 => none
  | fuel + 1 =>
    match skipWs input with
    | c :: rest =>
      if c = '"' then
        match parseStrChars rest with
        | some (kcs, r1) =>
          match skipWs r1 with
          | ':' :: r2 =>
            match parseJsonVal fuel r2 with
            | some (v, r3) =>
              let acc2 := insertField acc ⟨kcs⟩ v
              match skipWs r3 with
              | ',' :: r4 => parseJsonObjItems fuel r4 acc2
              | b :: r4 => if b = rbrace then some (.obj acc2, r4) else none
              | [] => none
            | none => none
          | _ => none
        | none => none
      else none
    | [] => none
termination_by structural fuel

end

/-- `JSON.parse`: parse one value and require only trailing whitespace. -/
def jsonParse (s : String) : Option JsValue :=
  match parseJsonVal (2 * s.data.length + 8) s.data with
  | some (v, rest) => if skipWs rest = [] then some v else none
  | none => none

/-- A JS decimal numeric literal (`Number(string)` on the formats the
payloads use); hexadecimal/`Infinity` forms are out of scope here. -/
def parseDecChars (l : List Char) : Option Rat :=
  let neg : Bool := match l with | '-' :: _ => true | _ => false
  let l1 := match l with | '-' :: r => r | '+' :: r => r | _ => l
  let ints := l1.takeWhile Char.isDigit
  let r1 := l1.dropWhile Char.isDigit
  let frSpec : Option (List Char × List Char) := match r1 with
    | '.' :: r => some (r.takeWhile Char.isDigit, r.dropWhile Char.isDigit)
    | _ => none
  let fr : List Char := match frSpec with | some (d, _) => d | none => []
  let r2 := match frSpec with | some (_, r) => r | none => r1
  if ints.isEmpty && fr.isEmpty then none
  else
    let expSpec : Option (Bool × List Char × List Char) := match r2 with
      | e :: rest =>
        if e = 'e' ∨ e = 'E' then
          match rest with
          | '+' :: r => some (false, r.takeWhile Char.isDigit, r.dropWhile Char.isDigit)
          | '-' :: r => some (true, r.takeWhile Char.isDigit, r.dropWhile Char.isDigit)
          | r => some (false, r.takeWhile Char.isDigit, r.dropWhile Char.isDigit)
        else none
      | [] => none
    match expSpec with
    | some (_, d, _) =>
      if d.isEmpty then none
      else
        match expSpec with
        | some (eneg, edigits, r3) =>
          if r3 ≠ [] then none
          else
            let m : Nat := digitsToNat ints * 10 ^ fr.length + digitsToNat fr
            let e : Nat := digitsToNat edigits
            let mag : Rat :=
              if eneg then mkRat m (10 ^ fr.length * 10 ^ e)
              else mkRat (m * 10 ^ e) (10 ^ fr.length)
            some (if neg then -mag else mag)
        | none => none
    | none =>
      if r2 ≠ [] then none
      else
        let mant : Rat := mkRat (digitsToNat ints * 10 ^ fr.length + digitsToNat fr)
          (10 ^ fr.length)
        some (if neg then -mant else mant)

/-- JS `ToNumber` on the values an `exp` claim can carry (`none` is
`NaN`); the `ToPrimitive` chain for arrays and objects is not modelled
(they coerce through `toString`, which no modelled input exercises). -/
def jsToNumber : JsValue → Option Rat
  | .num q => some q
  | .bool b => some (if b then 1 else 0)
  | .null => some 0
  | .undefined => none
  | .str s =>
    let t := (s.data.dropWhile Char.isWhitespace).reverse.dropWhile Char.isWhitespace |>.reverse
    if t.isEmpty then some 0 else parseDecChars t
  | .arr _ => none
  | .obj _ => none

/-- `payload.exp < Date.now() / 1000` (`false` when `ToNumber` gives
`NaN`). -/
def jsNumLt (v : JsValue) (now : Rat) : Bool :=
  match jsToNumber v with
  | some q => decide (q < now)
  | none => false

/-- Decode one JWT segment: `JSON.parse(this._base64UrlDecode(part))`. -/
def jwtDecodeSeg (x : String) : Option JsValue :=
  (base64UrlDecode x).bind jsonParse

/-- `_validateJWT(token)` with the current time (`Date.now() / 1000`, in
seconds) as a parameter: string check, exactly 3 dot-separated segments,
decode and parse header and payload (any failure is caught and yields
`false`), require truthy `typ` and `alg`, reject a truthy expired `exp`. -/
def validateJWT (now : Rat) (v : JsValue) : Bool :=
  match v with
  | .str s =>
    if s = "" then false
    else
      match splitOnDot s with
      | [a, b, _] =>
        match jwtDecodeSeg a, jwtDecodeSeg b with
        | some header, some payload =>
          if ¬ (jsTruthy (getProp header "typ") && jsTruthy (getProp header "alg")) then false
          else if jsTruthy (getProp payload "exp") && jsNumLt (getProp payload "exp") now then
            false
          else true
        | _, _ => false
      | _ => false
  | _ => false

/-- The claim's reading of `_validateJWT`, literal about expiry: the token
is a string of exactly 3 dot-separated segments, the first two decode and
parse as JSON, the header declares (JS-truthy) `typ` and `alg`, and *any*
`exp` claim present in the payload is not earlier than the current time. -/
def jwtClaimOrig (now : Rat) (v : JsValue) : Prop :=
  ∃ s a b c header payload,
    v = .str s
    ∧ splitOnDot s = [a, b, c]
    ∧ jwtDecodeSeg a = some header
    ∧ jwtDecodeSeg b = some payload
    ∧ jsTruthy (getProp header "typ") = true
    ∧ jsTruthy (getProp header "alg") = true
    ∧ (isJsUndefined (getProp payload "exp") = false → jsNumLt (getProp payload "exp") now = false)

/-- The amended claim: as above, but only a JS-truthy `exp` claim is
compared against the current time (a falsy `exp` such as `0` is ignored
by the `payload.exp && payload.exp < Date.now() / 1000` guard). -/
def jwtClaimAmended (now : Rat) (v : JsValue) : Prop :=
  ∃ s a b c header payload,
    v = .str s
    ∧ splitOnDot s = [a, b, c]
    ∧ jwtDecodeSeg a = some header
    ∧ jwtDecodeSeg b = some payload
    ∧ jsTruthy (getProp header "typ") = true
    ∧ jsTruthy (getProp header "alg") = true
    ∧ (jsTruthy (getProp payload "exp") && jsNumLt (getProp payload "exp") now) = false

/-- C8 (amended): `_validateJWT(token)` returns `true` exactly when the
token is a string of exactly 3 dot-separated segments whose base64url-
decoded first two segments parse as JSON, the decoded header declares a
truthy type and algorithm, and any *truthy* `exp` claim in the payload is
not earlier than the current time; every decode or parse failure (and
every non-string input) yields `false`, and the function — total by
construction, all throwing subcomputations being caught — never throws. -/
theorem c8_validateJWT_characterization (now : Rat) (v : JsValue) :
    validateJWT now v = true ↔ jwtClaimAmended now v := by
  constructor
  · intro hval
    cases v
    case str s =>
      simp only [validateJWT] at hval
      by_cases hs : s = ""
      · rw [if_pos hs] at hval; exact absurd hval (by simp)
      · rw [if_neg hs] at hval
        rcases hsp : splitOnDot s with _ | ⟨a, _ | ⟨b, _ | ⟨c, _ | ⟨d, t⟩⟩⟩⟩ <;>
          rw [hsp] at hval
        · exact absurd hval (by simp)
        · exact absurd hval (by simp)
        · exact absurd hval (by simp)
        · have hval2 : (match jwtDecodeSeg a, jwtDecodeSeg b with
              | some header, some payload =>
                if ¬ (jsTruthy (getProp header "typ") && jsTruthy (getProp header "alg")) then
                  false
                else if jsTruthy (getProp payload "exp")
                    && jsNumLt (getProp payload "exp") now then false
                else true
              | _, _ => false) = true := hval
          cases hda : jwtDecodeSeg a <;> rw [hda] at hval2
          · exact absurd hval2 (by simp)
          · rename_i header
            cases hdb : jwtDecodeSeg b <;> rw [hdb] at hval2
            · exact absurd hval2 (by simp)
            · rename_i payload
              have hval3 : (if ¬ (jsTruthy (getProp header "typ")
                    && jsTruthy (getProp header "alg")) then false
                  else if jsTruthy (getProp payload "exp")
                      && jsNumLt (getProp payload "exp") now then false
                  else true) = true := hval2
              by_cases hta : jsTruthy (getProp header "typ") && jsTruthy (getProp header "alg")
              · rw [if_neg (by simp [hta])] at hval3
                by_cases hexp : jsTruthy (getProp payload "exp")
                    && jsNumLt (getProp payload "exp") now
                · rw [if_pos (by simpa using hexp)] at hval3; exact absurd hval3 (by simp)
                · exact ⟨s, a, b, c, header, payload, rfl, hsp, hda, hdb,
                    (Bool.and_eq_true _ _ ▸ hta).1, (Bool.and_eq_true _ _ ▸ hta).2,
                    by simpa using hexp⟩
              · rw [if_pos (by simpa using hta)] at hval3; exact absurd hval3 (by simp)
        · exact absurd hval (by simp)
    all_goals simp [validateJWT] at hval
  · rintro ⟨s, a, b, c, header, payload, rfl, hsp, hda, hdb, htyp, halg, hexp⟩
    have hs : s ≠ "" := by
      intro h
      rw [h] at hsp
      simp [splitOnDot, splitOnDotChars] at hsp
    simp only [validateJWT, if_neg hs, hsp]
    simp [hda, hdb, htyp, halg, hexp]

/-- A structurally valid JWT whose payload is `\x7b"exp":0\x7d` — an expiry
claim far in the past. -/
def c8ExpZeroToken : String :=
  "eyJ0eXAiOiJKV1QiLCJhbGciOiJIUzI1NiJ9.eyJleHAiOjB9.sig"

/-- C8 (counterexample): at current time 100 (seconds), `_validateJWT`
accepts the token whose payload carries `exp: 0`, although that expiry
claim is in the past — the `payload.exp && ...` guard skips falsy expiry
values, so the claim as stated (any exp claim must not be earlier than
now) is false on the code. -/
theorem c8_exp_zero_counterexample :
    validateJWT 100 (.str c8ExpZeroToken) = true
    ∧ ¬ jwtClaimOrig 100 (.str c8ExpZeroToken) := by
  constructor
  · rfl
  · rintro ⟨s, a, b, c, header, payload, hv, hsp, hda, hdb, htyp, halg, hexp⟩
    cases hv
    rw [show splitOnDot c8ExpZeroToken
        = ["eyJ0eXAiOiJKV1QiLCJhbGciOiJIUzI1NiJ9", "eyJleHAiOjB9", "sig"] from rfl] at hsp
    obtain ⟨rfl, rfl, rfl⟩ :
        "eyJ0eXAiOiJKV1QiLCJhbGciOiJIUzI1NiJ9" = a ∧ "eyJleHAiOjB9" = b ∧ "sig" = c := by
      simpa using hsp
    rw [show jwtDecodeSeg "eyJleHAiOjB9"
        = some (JsValue.obj [("exp", JsValue.num 0)]) from rfl] at hdb
    cases hdb
    have h1 := hexp (by rfl)
    have h2 : jsNumLt (getProp (JsValue.obj [("exp", JsValue.num 0)]) "exp") 100 = true := by
      rfl
    rw [h2] at h1
    exact absurd h1 (by simp)

/-! ## V2: the hardened bridge (second class in `src/Ubidots.js`) -/

/-- `typeof v === 'object'` (true for objects, arrays and `null`; the
`null` case is always excluded by a preceding truthiness check). -/
def isObjLike : JsValue → Bool
  | .obj _ => true
  | .arr _ => true
  | _ => false

def isArr : JsValue → Bool
  | .arr _ => true
  | _ => false

def isNum : JsValue → Bool
  | .num _ => true
  | _ => false

def isStr : JsValue → Bool
  | .str _ => true
  | _ => false

/-- The hardened bridge state: the `_state` record (fields initialised to
`null`, headers to `\x7b\x7d`), the trusted-origin allowlist, the outbound
target origin, and the set of events with a registered callback
(`_eventsCallback[e]` is a function). -/
structure V2State where
  headers : JsValue := .obj []
  token : JsValue := .null
  jwtToken : JsValue := .null
  selectedDevice : JsValue := .null
  selectedDevices : JsValue := .null
  dashboardDateRange : JsValue := .null
  realTime : JsValue := .null
  deviceObject : JsValue := .null
  selectedDeviceObjects : JsValue := .null
  dashboardObject : JsValue := .null
  selectedFilters : JsValue := .null
  trustedOrigins : List String := [""]
  targetOrigin : String := ""
  cbs : List String := []

/-- The `EVENTS` table of the hardened class. -/
def v2Events : List String :=
  ["dashboardRefreshed", "isRealTimeActive", "ready", "receivedHeaders",
   "receivedJWTToken", "receivedToken", "selectedDashboardDateRange",
   "selectedDashboardObject", "selectedDevice", "selectedDeviceObject",
   "selectedDevices", "selectedDeviceObjects", "selectedFilters"]

/-- The constructor: `trustedOrigins` defaults to `['']` (same-origin
sentinel) when the option is absent; `targetOrigin` is
`options.targetOrigin || window.location.origin` — note the option is
*not* validated. -/
def v2Construct (loc : String) (trustedOpt : Option (List String))
    (targetOpt : Option String) : V2State :=
  { trustedOrigins := trustedOpt.getD [""]
    targetOrigin :=
      match targetOpt with
      | some t => if t ≠ "" then t else loc
      | none => loc }

/-- `on(eventName, callback)`: the callback slot exists only for known
events. -/
def v2On (st : V2State) (ev : String) : V2State :=
  if v2Events.contains ev then
    { st with cbs := if st.cbs.contains ev then st.cbs else st.cbs ++ [ev] }
  else st

/-- `_isOriginTrusted(origin)`. -/
def isOriginTrusted (trusted : List String) (loc origin : String) : Bool :=
  let isSameOriginAllowed := trusted.contains ""
  let isSameOrigin := origin = loc
  if isSameOrigin && isSameOriginAllowed then true
  else trusted.contains origin

/-- `_validatePayload(eventName, payload)` — the per-event validation
rules; unknown events default to `true`. -/
def validatePayload (ev : String) (p : JsValue) : Bool :=
  if ev = "receivedToken" then (match p with | .str s => s ≠ "" | _ => false)
  else if ev = "receivedJWTToken" then (match p with | .str s => s ≠ "" | _ => false)
  else if ev = "selectedDevice" then isStr p
  else if ev = "selectedDevices" then
    (match p with | .arr l => l.all isStr | _ => false)
  else if ev = "selectedDashboardDateRange" then
    jsTruthy p && isObjLike p && isNum (getProp p "start") && isNum (getProp p "end")
  else if ev = "isRealTimeActive" then (match p with | .bool _ => true | _ => false)
  else if ev = "receivedHeaders" then jsTruthy p && isObjLike p && !isArr p
  else if ev = "selectedDashboardObject" then
    jsTruthy p && isObjLike p && jsTruthy (getProp p "id")
  else if ev = "selectedDeviceObject" then
    jsTruthy p && isObjLike p && jsTruthy (getProp p "id")
  else if ev = "selectedDeviceObjects" then
    (match p with
     | .arr l => l.all (fun o => jsTruthy o && isObjLike o && jsTruthy (getProp o "id"))
     | _ => false)
  else if ev = "selectedFilters" then isArr p
  else true

/-- `EVENT_TO_PROPERTY_MAP` plus the state assignment
`this._state[prop] = sanitizedPayload`. -/
def v2SetField (st : V2State) (ev : String) (v : JsValue) : V2State :=
  if ev = "isRealTimeActive" then { st with realTime := v }
  else if ev = "receivedHeaders" then { st with headers := v }
  else if ev = "receivedJWTToken" then { st with jwtToken := v }
  else if ev = "receivedToken" then { st with token := v }
  else if ev = "selectedDashboardDateRange" then { st with dashboardDateRange := v }
  else if ev = "selectedDashboardObject" then { st with dashboardObject := v }
  else if ev = "selectedDevice" then { st with selectedDevice := v }
  else if ev = "selectedDeviceObject" then { st with deviceObject := v }
  else if ev = "selectedDevices" then { st with selectedDevices := v }
  else if ev = "selectedDeviceObjects" then { st with selectedDeviceObjects := v }
  else if ev = "selectedFilters" then { st with selectedFilters := v }
  else st

/-- Does `EVENT_TO_PROPERTY_MAP` have an entry for the event? -/
def v2HasField (ev : String) : Bool :=
  ["isRealTimeActive", "receivedHeaders", "receivedJWTToken", "receivedToken",
   "selectedDashboardDateRange", "selectedDashboardObject", "selectedDevice",
   "selectedDeviceObject", "selectedDevices", "selectedDeviceObjects",
   "selectedFilters"].contains ev

/-- `_processMessage(data, origin)`: recognised event, payload shape
check, JWT structural check for `receivedJWTToken`, state update with the
*sanitized* payload, callback invocation with the *raw* payload, then the
one-shot ready dispatch (the ready callback is nulled after it runs; the
fields compared against `undefined` start as `null`, so only the
token/JWT conjunct actually gates).  Callback exceptions are caught per
call; the trace records the invocations. -/
def v2ProcessMessage (now : Rat) (st : V2State) (data : JsValue) :
    V2State × List (String × JsValue) :=
  let ev := match getProp data "event" with | .str s => s | _ => ""
  let payload := getProp data "payload"
  if ¬ v2Events.contains ev then (st, [])
  else if ¬ validatePayload ev payload then (st, [])
  else if ev = "receivedJWTToken" && ¬ validateJWT now payload then (st, [])
  else
    let st1 := if v2HasField ev then v2SetField st ev (sanitizeData payload) else st
    let trace1 := if st1.cbs.contains ev then [(ev, payload)] else []
    let ready := (jsTruthy st1.token || jsTruthy st1.jwtToken)
      && !isJsUndefined st1.selectedDevice && !isJsUndefined st1.dashboardDateRange
      && !isJsUndefined st1.dashboardObject && st1.cbs.contains "ready"
    if ready then ({ st1 with cbs := st1.cbs.erase "ready" }, trace1 ++ [("ready", .undefined)])
    else (st1, trace1)

/-- `_listenMessage(event)`: trusted-origin check, envelope checks, then
`_processMessage`. -/
def v2ListenMessage (now : Rat) (loc : String) (st : V2State) (m : Msg) :
    V2State × List (String × JsValue) :=
  if ¬ isOriginTrusted st.trustedOrigins loc m.origin then (st, [])
  else if ¬ (jsTruthy m.data && isObjLike m.data) then (st, [])
  else
    match getProp m.data "event" with
    | .str s => if s = "" then (st, []) else v2ProcessMessage now st m.data
    | _ => (st, [])

/-- `setTargetOrigin(origin)`: non-strings and the wildcard are rejected,
leaving the stored origin unchanged. -/
def v2SetTargetOrigin (st : V2State) (v : JsValue) : V2State :=
  match v with
  | .str s => if s = "*" then st else { st with targetOrigin := s }
  | _ => st

/-- `_sendPostMessage(\x7bevent, payload\x7d)` (no per-call `targetOrigin`
is passed by any public command): `none` when the event name is falsy
(logged error, nothing posted), otherwise the posted envelope with the
sanitized payload and the target origin used. -/
def v2SendPostMessage (st : V2State) (event payload : JsValue) :
    Option (JsValue × String) :=
  if ¬ jsTruthy event then none
  else some (.obj [("event", .str (jsDisplay event)), ("payload", sanitizeData payload)],
    st.targetOrigin)

/-- `setDashboardDevice(deviceId)`. -/
def v2SetDashboardDevice (st : V2State) (deviceId : JsValue) :
    Option (JsValue × String) :=
  if ¬ jsTruthy deviceId then none
  else v2SendPostMessage st (.str "setDashboardDevice") deviceId

/-- C2: an inbound message whose origin fails the trusted-origin check is
dropped before anything else happens: in both the refactored bridge
(strict same-origin check) and the hardened bridge (allowlist check via
`_isOriginTrusted`), handling it returns the state unchanged — every
Bridge State field keeps its value — and produces no subscriber
invocation. -/
theorem c2_untrusted_origin_no_effect :
    (∀ (loc : String) (st : V1State) (m : Msg), m.origin ≠ loc →
        v1HandleMessage loc st m = (st, []))
    ∧ (∀ (now : Rat) (loc : String) (st : V2State) (m : Msg),
        isOriginTrusted st.trustedOrigins loc m.origin = false →
        v2ListenMessage now loc st m = (st, [])) := by
  constructor
  · intro loc st m h
    simp [v1HandleMessage, h]
  · intro now loc st m h
    simp [v2ListenMessage, h]

/-- A message from an origin outside the allowlist. -/
def evilMsg : Msg :=
  ⟨"https://evil.example", .obj [("event", .str "receivedToken"), ("payload", .str "x")]⟩

/-- Concrete instantiation of `c2_untrusted_origin_no_effect`: a
cross-origin `receivedToken` message is dropped by both bridges. -/
theorem c2_untrusted_origin_no_effect_witness :
    v1HandleMessage "http://localhost:3000" v1FreshState evilMsg = (v1FreshState, [])
    ∧ v2ListenMessage 0 "http://localhost:3000" {} evilMsg = ({}, []) := by
  refine ⟨?_, ?_⟩
  · exact c2_untrusted_origin_no_effect.1 "http://localhost:3000" v1FreshState evilMsg
      (by decide)
  · exact c2_untrusted_origin_no_effect.2 0 "http://localhost:3000" {} evilMsg (by rfl)

/-! ## Claims C5 and C9 -/

def c5Loc : String := "http://localhost:3000"

/-- A hardened bridge with a `receivedToken` callback registered. -/
def c5State : V2State := v2On (v2Construct c5Loc none none) "receivedToken"

def c5Msg : Msg :=
  ⟨c5Loc, .obj [("event", .str "receivedToken"),
                ("payload", .str "<script>alert(1)</script>")]⟩

/-- C5 (counterexample): on a validated same-origin `receivedToken`
message whose payload is `<script>alert(1)</script>`, the registered
subscriber callback receives the *raw* payload — script included — while
the sanitized copy (here the empty string) only goes into Bridge State:
`_processMessage` computes `sanitizedPayload` solely for the state
assignment and invokes `this._eventsCallback[event](payload)` with the
original value, so the script is *not* removed before it reaches the
subscriber. -/
theorem c5_subscriber_receives_unsanitized_payload :
    ((v2ListenMessage 0 c5Loc c5State c5Msg).2
        = [("receivedToken", .str "<script>alert(1)</script>")])
    ∧ ((v2ListenMessage 0 c5Loc c5State c5Msg).1.token = .str "") := by
  constructor <;> rfl

set_option maxHeartbeats 2000000 in
/-- C5 (amended): the sanitizer passes non-string scalars (and
`null`/`undefined`) through unchanged, sanitizes arrays element-wise,
sanitizes objects key-wise while omitting `__proto__`, `constructor` and
`prototype` from the result, and strips `<script>…</script>` blocks from
strings — in particular `<script>alert(1)</script>` is reduced to the
empty string; the sanitized payload is what gets *stored in Bridge State*
for a validated `receivedToken` message (subscribers receive the
validated, unsanitized payload — see the counterexample). -/
theorem c5_sanitizer_spec :
    (∀ b, sanitizeData (.bool b) = .bool b)
    ∧ (∀ q, sanitizeData (.num q) = .num q)
    ∧ sanitizeData .null = .null
    ∧ sanitizeData .undefined = .undefined
    ∧ (∀ l, sanitizeData (.arr l) = .arr (l.map sanitizeData))
    ∧ (∀ kvs, sanitizeData (.obj kvs)
        = .obj ((kvs.filter (fun kv => !dangerousKey kv.1)).map
            (fun kv => (kv.1, sanitizeData kv.2))))
    ∧ sanitizeString "<script>alert(1)</script>" = ""
    ∧ (∀ (now : Rat) (loc : String) (st : V2State) (s : String),
        isOriginTrusted st.trustedOrigins loc loc = true → s ≠ "" →
        (v2ListenMessage now loc st
            ⟨loc, .obj [("event", .str "receivedToken"), ("payload", .str s)]⟩).1.token
          = .str (sanitizeString s)) := by
  refine ⟨fun b => rfl, fun q => rfl, rfl, rfl, ?_, ?_, rfl, ?_⟩
  · intro l
    rw [show sanitizeData (.arr l) = .arr (sanitizeArr l) from rfl, sanitizeArr_eq_map]
  · intro kvs
    rw [show sanitizeData (.obj kvs) = .obj (sanitizeObjFields kvs) from rfl,
      sanitizeObjFields_eq]
  · intro now loc st s htr hs
    have h1 : validatePayload "receivedToken" (.str s) = true := by
      simp [validatePayload, hs]
    have h2 : (v2ProcessMessage now st
        (.obj [("event", .str "receivedToken"), ("payload", .str s)])).1.token
        = .str (sanitizeString s) := by
      have h3 : v2ProcessMessage now st
          (.obj [("event", .str "receivedToken"), ("payload", .str s)])
          = if ¬ validatePayload "receivedToken" (.str s) then (st, [])
            else
              let st1 := v2SetField st "receivedToken" (sanitizeData (.str s))
              let trace1 := if st1.cbs.contains "receivedToken"
                then [("receivedToken", JsValue.str s)] else []
              let ready := (jsTruthy st1.token || jsTruthy st1.jwtToken)
                && !isJsUndefined st1.selectedDevice && !isJsUndefined st1.dashboardDateRange
                && !isJsUndefined st1.dashboardObject && st1.cbs.contains "ready"
              if ready then
                ({ st1 with cbs := st1.cbs.erase "ready" }, trace1 ++ [("ready", JsValue.undefined)])
              else (st1, trace1) := rfl
      rw [h3, h1]
      simp only [not_true, if_false, Bool.true_eq_false, ite_false]
      split <;> rfl
    have h4 : v2ListenMessage now loc st
        ⟨loc, .obj [("event", .str "receivedToken"), ("payload", .str s)]⟩
        = if ¬ isOriginTrusted st.trustedOrigins loc loc then (st, [])
          else v2ProcessMessage now st
            (.obj [("event", .str "receivedToken"), ("payload", .str s)]) := rfl
    rw [h4, htr]
    simpa using h2

/-- Concrete instantiation of `c5_sanitizer_spec`: a same-origin
`receivedToken` message stores the (benign, unchanged by sanitization)
token into Bridge State. -/
theorem c5_sanitizer_spec_witness :
    isOriginTrusted (({} : V2State)).trustedOrigins "http://localhost:3000"
        "http://localhost:3000" = true
    ∧ (v2ListenMessage 0 "http://localhost:3000" {}
        ⟨"http://localhost:3000",
         .obj [("event", .str "receivedToken"), ("payload", .str "tok-1")]⟩).1.token
      = .str "tok-1" := by
  refine ⟨rfl, ?_⟩
  exact (c5_sanitizer_spec.2.2.2.2.2.2.2 0 "http://localhost:3000" {} "tok-1" rfl
    (by decide)).trans rfl

/-- C9 (counterexample): the constructor stores `options.targetOrigin`
without validation, so `new Ubidots({targetOrigin: '*'})` yields a stored
target origin of `'*'`, and every subsequent outbound command —
`setDashboardDevice` here — posts to the wildcard origin, falsifying "the
Bridge's outbound target origin is never the wildcard". -/
theorem c9_constructor_accepts_wildcard :
    ((v2Construct "https://app.example.com" none (some "*")).targetOrigin = "*")
    ∧ ((v2SetDashboardDevice (v2Construct "https://app.example.com" none (some "*"))
          (.str "dev-1")).map Prod.snd = some "*") := by
  constructor <;> rfl

/-- C9 (amended): for an instance constructed without a wildcard
`targetOrigin` option, the stored target origin defaults to
`window.location.origin`, `setTargetOrigin('*')` is rejected leaving it
unchanged, the stored origin stays non-wildcard under any sequence of
`setTargetOrigin` calls, and every envelope `_sendPostMessage` posts goes
to a non-wildcard target origin. -/
theorem c9_target_origin_invariant (loc : String) (trustedOpt : Option (List String))
    (targetOpt : Option String) (calls : List JsValue)
    (hloc : loc ≠ "*") (hopt : ∀ t, targetOpt = some t → t ≠ "*") :
    ((v2Construct loc trustedOpt none).targetOrigin = loc)
    ∧ (∀ st : V2State, v2SetTargetOrigin st (.str "*") = st)
    ∧ ((calls.foldl v2SetTargetOrigin (v2Construct loc trustedOpt targetOpt)).targetOrigin
        ≠ "*")
    ∧ (∀ ev p out,
        v2SendPostMessage (calls.foldl v2SetTargetOrigin (v2Construct loc trustedOpt targetOpt))
            ev p = some out → out.2 ≠ "*") := by
  have hpres : ∀ (st : V2State) (v : JsValue), st.targetOrigin ≠ "*" →
      (v2SetTargetOrigin st v).targetOrigin ≠ "*" := by
    intro st v h
    cases v <;> simp [v2SetTargetOrigin, h]
    rename_i s
    by_cases hs : s = "*" <;> simp [hs, h]
  have hinit : (v2Construct loc trustedOpt targetOpt).targetOrigin ≠ "*" := by
    cases targetOpt with
    | none => simpa [v2Construct] using hloc
    | some t =>
      have ht := hopt t rfl
      by_cases he : t = "" <;> simp [v2Construct, he, ht, hloc]
  have hfold : ∀ (l : List JsValue) (st : V2State), st.targetOrigin ≠ "*" →
      (l.foldl v2SetTargetOrigin st).targetOrigin ≠ "*" := by
    intro l
    induction l with
    | nil => intro st h; simpa using h
    | cons v rest ih =>
      intro st h
      simpa [List.foldl_cons] using ih _ (hpres st v h)
  refine ⟨by simp [v2Construct], ?_, hfold calls _ hinit, ?_⟩
  · intro st
    simp [v2SetTargetOrigin]
  · intro ev p out hsend
    by_cases he : jsTruthy ev
    · have : out = (.obj [("event", .str (jsDisplay ev)), ("payload", sanitizeData p)],
          (calls.foldl v2SetTargetOrigin (v2Construct loc trustedOpt targetOpt)).targetOrigin) := by
        simpa [v2SendPostMessage, he] using hsend.symm
      rw [this]
      exact hfold calls _ hinit
    · simp [v2SendPostMessage, he] at hsend

/-- Concrete instantiation of `c9_target_origin_invariant`: default
construction plus a valid retarget, a rejected non-string and a rejected
wildcard leave a non-wildcard target origin. -/
theorem c9_target_origin_invariant_witness :
    ((v2Construct "https://app.example.com" none none).targetOrigin
        = "https://app.example.com")
    ∧ (([JsValue.str "https://b.example", JsValue.num 5, JsValue.str "*"].foldl
          v2SetTargetOrigin (v2Construct "https://app.example.com" none none)).targetOrigin
        ≠ "*") := by
  refine ⟨?_, ?_⟩
  · exact (c9_target_origin_invariant "https://app.example.com" none none [] (by decide)
      (fun t h => nomatch h)).1
  · exact (c9_target_origin_invariant "https://app.example.com" none none
      [JsValue.str "https://b.example", JsValue.num 5, JsValue.str "*"] (by decide)
      (fun t h => nomatch h)).2.2.1
